import Mathlib

/-!
Shallow embedding of the `bdk_redb` changeset persistence engine
(`src/lib.rs`, `src/anchor_trait.rs`, `src/error.rs`) and proofs about it.

Modelling conventions:
* redb tables are modelled as partial maps `key → Option value`; the whole
  database is a record with one map per entity kind, where every key is
  paired with the (namespace-derived) table name it lives under, so that one
  physical store hosts many wallets, as in the source.
* The underlying redb engine is an external collaborator assumed ACID
  (spec declares it out of scope): a write transaction that is dropped
  without `commit()` (which is what a Rust `panic!` unwinding does in the
  source) leaves the committed state unchanged.
* Machine integers (u32 heights, u64 timestamps) are `Nat`; the code never
  does arithmetic on them, only encoding, where `% 256` decomposition is
  explicit.
* Rust `panic!` is modelled as a distinguished non-`ok` outcome carrying the
  panic message; fallible functions return `Except`.
-/

namespace BdkRedb

/-- Raw byte strings (`[u8; N]` / `Vec<u8>` contents). -/
abbrev Bytes := List Nat

/-- Table-name / wallet-name strings (`String` in the source). -/
abbrev Name := List Char

/-- Point update of a partial map (redb `Table::insert`, which upserts). -/
def upd [DecidableEq K] (m : K → Option V) (k : K) (v : V) : K → Option V :=
  fun q => if q = k then some v else m q

/-- Point removal from a partial map (redb `Table::remove`; removing an
absent key is a no-op, as in redb where it returns `Ok(None)`). -/
def del [DecidableEq K] (m : K → Option V) (k : K) : K → Option V :=
  fun q => if q = k then none else m q

/-- The empty map (a freshly created table). -/
def emp : K → Option V := fun _ => none

/-- `bdk_chain::BlockId`: a height (u32) plus a 32-byte block hash.
The hash is identified with its byte array (`to_byte_array` /
`from_byte_array` form an external bijection). -/
structure BlockId where
  height : Nat
  hash : Bytes
deriving DecidableEq

/-- `bdk_chain::ConfirmationBlockTime`: a `BlockId` plus a u64
confirmation time. -/
structure ConfirmationBlockTime where
  block_id : BlockId
  confirmation_time : Nat
deriving DecidableEq

/-- A bitcoin transaction as this store observes it: the source only ever
calls `tx.compute_txid()` (a deterministic digest, 32 bytes) and serializes
the transaction with ciborium (`ciborium::into_writer`); both are functions
of the transaction, modelled by their resulting byte strings. -/
structure Tx where
  txid : Bytes
  ser : Bytes
deriving DecidableEq

/-- `Store`: holds the wallet namespace. The source's `Store::new` computes
the per-wallet table names below once and stores them as fields; we model
them as the derivation `Store::new` performs (`wallet_name.push_str(...)`). -/
structure Store where
  wallet_name : Name
deriving DecidableEq

def Store.keychain_table_name (s : Store) : Name := s.wallet_name ++ "_keychain".data
def Store.blocks_table_name (s : Store) : Name := s.wallet_name ++ "_blocks".data
def Store.txs_table_name (s : Store) : Name := s.wallet_name ++ "_txs".data
def Store.txouts_table_name (s : Store) : Name := s.wallet_name ++ "_txouts".data
def Store.anchors_table_name (s : Store) : Name := s.wallet_name ++ "_anchors".data
def Store.last_seen_table_name (s : Store) : Name := s.wallet_name ++ "_last_seen".data
def Store.last_evicted_table_name (s : Store) : Name := s.wallet_name ++ "_last_evicted".data
def Store.first_seen_table_name (s : Store) : Name := s.wallet_name ++ "_first_seen".data
def Store.last_revealed_table_name (s : Store) : Name := s.wallet_name ++ "_last_revealed".data
def Store.spk_table_name (s : Store) : Name := s.wallet_name ++ "_spk".data

/-- The whole physical redb database, one map per entity kind.  Every key
carries the table name it lives under.  `network` is the single shared
`NETWORK` table, keyed by wallet name.  `M` is the anchor metadata type
(`A::MetaDataType`). -/
structure DB (M : Type) where
  network : Name → Option Name
  keychains : (Name × Nat) → Option Name
  blocks : (Name × Nat) → Option Bytes
  txs : (Name × Bytes) → Option Bytes
  txouts : (Name × (Bytes × Nat)) → Option (Nat × Bytes)
  anchors : (Name × (Bytes × Bytes)) → Option M
  last_seen : (Name × Bytes) → Option Nat
  last_evicted : (Name × Bytes) → Option Nat
  first_seen : (Name × Bytes) → Option Nat
  last_revealed : (Name × Bytes) → Option Nat
  spk : (Name × (Bytes × Nat)) → Option Bytes

/-- A database with all tables freshly created and empty. -/
def emptyDB : DB M :=
  ⟨emp, emp, emp, emp, emp, emp, emp, emp, emp, emp, emp⟩

/-! Generic single-table loop shapes shared by the persist functions.
Each source persist function is a `for` loop over the changeset fragment
doing inserts (and, for blocks, removes) into one table. -/

/-- One iteration of the blocks loop: `Some(hash)` inserts, `None` removes
(`persist_blocks`, lib.rs 410-426). -/
def blocksStep [DecidableEq K] (tbl : Name) (t : (Name × K) → Option V)
    (p : K × Option V) : (Name × K) → Option V :=
  match p.2 with
  | some v => upd t (tbl, p.1) v
  | none => del t (tbl, p.1)

/-- The blocks loop over a whole fragment. -/
def blocksFold [DecidableEq K] (tbl : Name) (bs : List (K × Option V))
    (m : (Name × K) → Option V) : (Name × K) → Option V :=
  bs.foldl (blocksStep tbl) m

/-- Plain insert loop: each entry `e` is stored under key `key e` with
value `val e` in table `tbl`. -/
def insertAll [DecidableEq K] (tbl : Name) (key : E → K) (val : E → V)
    (es : List E) (m : (Name × K) → Option V) : (Name × K) → Option V :=
  es.foldl (fun t e => upd t (tbl, key e) (val e)) m

/-- Guarded insert loop: each entry must pass `guard`, otherwise the loop
`panic!`s with message `msg` (modelled as `Except.error msg`), as in
`persist_anchors` / `persist_last_seen` / `persist_last_evicted` /
`persist_first_seen`. -/
def guardedInsertAll [DecidableEq K] (tbl : Name) (guard : E → Bool) (msg : Name)
    (key : E → K) (val : E → V) :
    List E → ((Name × K) → Option V) → Except Name ((Name × K) → Option V)
  | [], m => .ok m
  | e :: es, m =>
      if guard e then
        guardedInsertAll tbl guard msg key val es (upd m (tbl, key e) (val e))
      else .error msg

/-! ## The persist functions (write path), translated from `src/lib.rs`. -/

/-- The referential-integrity guard used by `persist_anchors` and the three
observation-flag persists (lib.rs 475-476, 502-503, 525-526, 548-549): the
transaction id must be in the committed txs table of the read snapshot
(`txs_table.get(txid)?.is_some()`) or among the changeset's transactions
(`txs.iter().any(|tx| tx.compute_txid() == *txid)`). -/
def txidCovered (s : Store) (snap : DB M) (csTxs : List Tx) (txid : Bytes) : Bool :=
  (snap.txs (s.txs_table_name, txid)).isSome || csTxs.any (fun t => t.txid = txid)

/-- `persist_blocks` (lib.rs 410-426): `Some(hash)` upserts the height,
`None` removes it. -/
def persist_blocks (s : Store) (blocks : List (Nat × Option Bytes)) (db : DB M) : DB M :=
  { db with blocks := blocksFold s.blocks_table_name blocks db.blocks }

/-- `persist_txs` (lib.rs 429-441): inserts each transaction's ciborium
serialization under its computed txid. -/
def persist_txs (s : Store) (txs : List Tx) (db : DB M) : DB M :=
  { db with txs := insertAll s.txs_table_name Tx.txid Tx.ser txs db.txs }

/-- `persist_txouts` (lib.rs 444-460): inserts each txout under its
outpoint `(txid, vout)` as `(value_sats, script_bytes)`. -/
def persist_txouts (s : Store) (txouts : List ((Bytes × Nat) × (Nat × Bytes)))
    (db : DB M) : DB M :=
  { db with txouts := insertAll s.txouts_table_name Prod.fst Prod.snd txouts db.txouts }

/-- The anchor-variant abstraction `AnchorWithMetaData`
(src/anchor_trait.rs): extract the chain position (`anchor_block`, from the
upstream `bdk_chain::Anchor` trait), the metadata payload (`metadata`), and
rebuild an anchor from both (`from_id`). -/
structure AnchorImpl (A M : Type) where
  anchor_block : A → BlockId
  metadata : A → M
  from_id : BlockId → M → A

/-- The `AnchorWithMetaData` impl for `ConfirmationBlockTime`
(anchor_trait.rs 22-35); `anchor_block` for this type returns its
`block_id` (upstream `bdk_chain` impl of `Anchor`). -/
def cbtAnchor : AnchorImpl ConfirmationBlockTime Nat where
  anchor_block := fun a => a.block_id
  metadata := fun a => a.confirmation_time
  from_id := fun id m => ⟨id, m⟩

/-- The `AnchorWithMetaData` impl for `BlockId` (anchor_trait.rs 37-48):
metadata is `None : Option<()>` and `from_id` ignores it; `anchor_block`
for `BlockId` returns itself (upstream `bdk_chain` impl of `Anchor`). -/
def blockIdAnchor : AnchorImpl BlockId (Option Unit) where
  anchor_block := fun a => a
  metadata := fun _ => none
  from_id := fun id _ => id

/-- Little-endian 4-byte encoding of a u32 (`height.to_le_bytes()`):
byte i is `(n >> (8 * i)) & 0xff`. -/
def toLE4 (n : Nat) : Bytes :=
  [n % 256, n / 256 % 256, n / 65536 % 256, n / 16777216 % 256]

/-- `u32::from_le_bytes` on a 4-byte slice. -/
def fromLE4 (b : Bytes) : Nat :=
  match b with
  | [b0, b1, b2, b3] => b0 + 256 * (b1 + 256 * (b2 + 256 * b3))
  | _ => 0

/-- The 36-byte anchors key component (lib.rs 477-480): 4 little-endian
height bytes followed by the 32 block-hash bytes. -/
def blockIdBytes (b : BlockId) : Bytes := toLE4 b.height ++ b.hash

/-- Decoding of the 36-byte component in `read_anchors` (lib.rs 758-764):
`u32::from_le_bytes` of the first 4 bytes, hash from the remaining 32. -/
def blockIdOfBytes (bs : Bytes) : BlockId :=
  ⟨fromLE4 (bs.take 4), bs.drop 4⟩

/-- Panic message of `persist_anchors` (lib.rs 483). -/
def anchorsPanicMsg : Name := "txn corresponding to anchor must exist".data
/-- Panic message of `persist_last_seen` (lib.rs 506). -/
def lastSeenPanicMsg : Name := "txn must exist before persisting last_seen".data
/-- Panic message of `persist_last_evicted` (lib.rs 529). -/
def lastEvictedPanicMsg : Name := "txn must exist before persisting last_evicted".data
/-- Panic message of `persist_first_seen` (lib.rs 552). -/
def firstSeenPanicMsg : Name := "txn must exist before persisting first_seen".data

/-- `persist_anchors` (lib.rs 463-487): for each `(anchor, txid)`, if the
guard passes, insert the metadata under `(txid_bytes, blockid_bytes)`;
otherwise `panic!`.  `snap` is the table state seen through `read_tx`
(begun before any write of this call committed, so it is the pre-call
committed state). -/
def persist_anchors (impl : AnchorImpl A M) (s : Store) (snap : DB M)
    (anchors : List (A × Bytes)) (csTxs : List Tx) (db : DB M) :
    Except Name (DB M) :=
  (guardedInsertAll s.anchors_table_name (fun p => txidCovered s snap csTxs p.2)
      anchorsPanicMsg
      (fun p => (p.2, blockIdBytes (impl.anchor_block p.1)))
      (fun p => impl.metadata p.1) anchors db.anchors).map
    (fun m => { db with anchors := m })

/-- `persist_last_seen` (lib.rs 490-510). -/
def persist_last_seen (s : Store) (snap : DB M) (last_seen : List (Bytes × Nat))
    (csTxs : List Tx) (db : DB M) : Except Name (DB M) :=
  (guardedInsertAll s.last_seen_table_name (fun p => txidCovered s snap csTxs p.1)
      lastSeenPanicMsg Prod.fst Prod.snd last_seen db.last_seen).map
    (fun m => { db with last_seen := m })

/-- `persist_last_evicted` (lib.rs 513-533). -/
def persist_last_evicted (s : Store) (snap : DB M) (last_evicted : List (Bytes × Nat))
    (csTxs : List Tx) (db : DB M) : Except Name (DB M) :=
  (guardedInsertAll s.last_evicted_table_name (fun p => txidCovered s snap csTxs p.1)
      lastEvictedPanicMsg Prod.fst Prod.snd last_evicted db.last_evicted).map
    (fun m => { db with last_evicted := m })

/-- `persist_first_seen` (lib.rs 536-556). -/
def persist_first_seen (s : Store) (snap : DB M) (first_seen : List (Bytes × Nat))
    (csTxs : List Tx) (db : DB M) : Except Name (DB M) :=
  (guardedInsertAll s.first_seen_table_name (fun p => txidCovered s snap csTxs p.1)
      firstSeenPanicMsg Prod.fst Prod.snd first_seen db.first_seen).map
    (fun m => { db with first_seen := m })

/-- `persist_last_revealed` (lib.rs 559-569): unconditional insert of each
`(descriptor_id, index)` pair. -/
def persist_last_revealed (s : Store) (last_revealed : List (Bytes × Nat))
    (db : DB M) : DB M :=
  { db with last_revealed :=
      insertAll s.last_revealed_table_name Prod.fst Prod.snd last_revealed db.last_revealed }

/-- Flattening of the nested `spk_cache` map in iteration order
(outer map, then inner map), as `persist_spks` iterates it. -/
def spkFlatten (spk : List (Bytes × List (Nat × Bytes))) :
    List ((Bytes × Nat) × Bytes) :=
  spk.flatMap (fun p => p.2.map (fun q => ((p.1, q.1), q.2)))

/-- `persist_spks` (lib.rs 572-586): inserts each script under
`(descriptor_id, index)`. -/
def persist_spks (s : Store) (spk : List (Bytes × List (Nat × Bytes)))
    (db : DB M) : DB M :=
  { db with spk := insertAll s.spk_table_name Prod.fst Prod.snd (spkFlatten spk) db.spk }

/-- `bitcoin::Network` as the source uses it (an external enum; persisted
via `to_string()` and reloaded via `Network::from_str`, whose string forms
are "bitcoin" / "testnet" / "signet" / "regtest" in the upstream crate). -/
inductive Network where
  | bitcoin | testnet | signet | regtest
deriving DecidableEq

/-- `Network::to_string()` (upstream Display impl). -/
def Network.toText : Network → Name
  | .bitcoin => "bitcoin".data
  | .testnet => "testnet".data
  | .signet => "signet".data
  | .regtest => "regtest".data

/-- `Network::from_str` (upstream FromStr impl); `None` for an
unrecognized string (where `read_network` would `expect`-panic). -/
def networkOfText (t : Name) : Option Network :=
  if t = "bitcoin".data then some .bitcoin
  else if t = "testnet".data then some .testnet
  else if t = "signet".data then some .signet
  else if t = "regtest".data then some .regtest
  else none

/-- `persist_network` (lib.rs 382-393): if the changeset carries a network,
insert its string under the wallet name into the shared NETWORK table;
otherwise write nothing. -/
def persist_network (s : Store) (network : Option Network) (db : DB M) : DB M :=
  match network with
  | some n => { db with network := upd db.network s.wallet_name n.toText }
  | none => db

/-- `persist_keychains` (lib.rs 360-376): inserts each
`(label, descriptor.to_string())` pair into the keychains table.  redb's
`insert` upserts, so an existing descriptor for the label is overwritten
(the source only *assumes*, in a comment, that this never happens).
Descriptors are represented by their `to_string()` form, which is all the
store ever sees of them. -/
def persist_keychains (s : Store) (changeset : List (Nat × Name)) (db : DB M) : DB M :=
  { db with keychains :=
      insertAll s.keychain_table_name Prod.fst Prod.snd changeset db.keychains }

/-- `persist_local_chain` (lib.rs 399-407): one write transaction around
`persist_blocks`, then commit. -/
def persist_local_chain (s : Store) (blocks : List (Nat × Option Bytes))
    (db : DB M) : DB M :=
  persist_blocks s blocks db

/-- `persist_indexer` (lib.rs 351-357): one write transaction running
`persist_last_revealed` then `persist_spks`, then commit. -/
def persist_indexer (s : Store) (last_revealed : List (Bytes × Nat))
    (spk : List (Bytes × List (Nat × Bytes))) (db : DB M) : DB M :=
  persist_spks s spk (persist_last_revealed s last_revealed db)

/-- `tx_graph::ChangeSet` as this store consumes it (sets/maps are listed
in their BTree iteration order). -/
structure TxGraphCS (A : Type) where
  txs : List Tx
  txouts : List ((Bytes × Nat) × (Nat × Bytes))
  anchors : List (A × Bytes)
  last_seen : List (Bytes × Nat)
  last_evicted : List (Bytes × Nat)
  first_seen : List (Bytes × Nat)

/-- Outcome of one persistence call: the committed database visible to a
subsequent read, plus the panic message when the call aborted via `panic!`
(in which case the open write transaction was dropped uncommitted). -/
structure RunOut (M : Type) where
  db : DB M
  panicMsg : Option Name

/-- `persist_tx_graph` (lib.rs 331-345): opens one write transaction and
one read snapshot (the pre-call committed state), runs the six
sub-persists in order, and commits.  A `panic!` in any sub-persist unwinds
before `commit()`, so the committed state stays `db`. -/
def persist_tx_graph (impl : AnchorImpl A M) (s : Store) (cs : TxGraphCS A)
    (db : DB M) : RunOut M :=
  let snap := db
  let db1 := persist_txs s cs.txs db
  let db2 := persist_txouts s cs.txouts db1
  match persist_anchors impl s snap cs.anchors cs.txs db2 with
  | .error msg => ⟨db, some msg⟩
  | .ok db3 =>
    match persist_last_seen s snap cs.last_seen cs.txs db3 with
    | .error msg => ⟨db, some msg⟩
    | .ok db4 =>
      match persist_last_evicted s snap cs.last_evicted cs.txs db4 with
      | .error msg => ⟨db, some msg⟩
      | .ok db5 =>
        match persist_first_seen s snap cs.first_seen cs.txs db5 with
        | .error msg => ⟨db, some msg⟩
        | .ok db6 => ⟨db6, none⟩

/-- A tx_graph changeset contains a dangling reference with respect to the
pre-call committed state `snap`: some anchor or observation-flag entry
names a transaction id that fails the referential-integrity guard. -/
def TxGraphCS.hasDangling (s : Store) (snap : DB M) (cs : TxGraphCS A) : Prop :=
  (∃ p ∈ cs.anchors, txidCovered s snap cs.txs p.2 = false)
  ∨ (∃ p ∈ cs.last_seen, txidCovered s snap cs.txs p.1 = false)
  ∨ (∃ p ∈ cs.last_evicted, txidCovered s snap cs.txs p.1 = false)
  ∨ (∃ p ∈ cs.first_seen, txidCovered s snap cs.txs p.1 = false)

/-- The full wallet `ChangeSet` (bdk_wallet), as `persist_wallet`
consumes it. -/
structure WalletCS where
  descriptor : Option Name
  change_descriptor : Option Name
  network : Option Network
  blocks : List (Nat × Option Bytes)
  tx_graph : TxGraphCS ConfirmationBlockTime
  last_revealed : List (Bytes × Nat)
  spk_cache : List (Bytes × List (Nat × Bytes))

/-- The label→descriptor map `persist_wallet` builds (lib.rs 313-319):
label 0 for the external descriptor, label 1 for the change descriptor,
and the change descriptor is only added when the external one is present. -/
def descChangeset (cs : WalletCS) : List (Nat × Name) :=
  match cs.descriptor with
  | none => []
  | some d =>
      (0, d) :: (match cs.change_descriptor with
        | none => []
        | some cd => [(1, cd)])

/-- `persist_wallet` (lib.rs 311-325): five phases, each opening and
committing its *own* write transaction, in source order: network,
keychains, local_chain, indexer, tx_graph (with `ConfirmationBlockTime`
anchors).  Only the tx_graph phase can panic; its rollback does not undo
the four commits before it. -/
def persist_wallet (s : Store) (cs : WalletCS) (db : DB Nat) : RunOut Nat :=
  let db1 := persist_network s cs.network db
  let db2 := persist_keychains s (descChangeset cs) db1
  let db3 := persist_local_chain s cs.blocks db2
  let db4 := persist_indexer s cs.last_revealed cs.spk_cache db3
  persist_tx_graph cbtAnchor s cs.tx_graph db4

/-! ## The read path, translated from `src/lib.rs`. -/

/-- `read_network` (lib.rs 666-673): look up the wallet name in the NETWORK
table and parse the string. -/
def read_network (s : Store) (db : DB M) : Option Network :=
  (db.network s.wallet_name).bind networkOfText

/-- `read_keychains` (lib.rs 643-660): the label→descriptor-string map
reassembled from the keychains table. -/
def read_keychains (s : Store) (db : DB M) : Nat → Option Name :=
  fun label => db.keychains (s.keychain_table_name, label)

/-- `read_blocks` (lib.rs 689-705): every stored `(height, hash)` row is
inserted as `(height, Some(hash))` into the loaded blocks map. -/
def read_blocks (s : Store) (db : DB M) : Nat → Option (Option Bytes) :=
  fun height => (db.blocks (s.blocks_table_name, height)).map some

/-- `read_txs` (lib.rs 708-721): the set of stored transactions, as the
map txid → serialized bytes it is decoded from. -/
def read_txs (s : Store) (db : DB M) : Bytes → Option Bytes :=
  fun txid => db.txs (s.txs_table_name, txid)

/-- `read_txouts` (lib.rs 724-746). -/
def read_txouts (s : Store) (db : DB M) : (Bytes × Nat) → Option (Nat × Bytes) :=
  fun op => db.txouts (s.txouts_table_name, op)

/-- `read_anchors` (lib.rs 749-772), at the level of stored rows: the
anchor set is reassembled from these rows via `from_id` (see
`read_anchor_entry` for the per-row decoding). -/
def read_anchors (s : Store) (db : DB M) : (Bytes × Bytes) → Option M :=
  fun k => db.anchors (s.anchors_table_name, k)

/-- Per-row decoding in `read_anchors` (lib.rs 757-768): split the 36-byte
component into height and hash and rebuild the anchor. -/
def read_anchor_entry (impl : AnchorImpl A M) (k : Bytes × Bytes) (meta : M) :
    A × Bytes :=
  (impl.from_id (blockIdOfBytes k.2) meta, k.1)

/-- `read_last_seen` (lib.rs 775-787). -/
def read_last_seen (s : Store) (db : DB M) : Bytes → Option Nat :=
  fun txid => db.last_seen (s.last_seen_table_name, txid)

/-- `read_last_evicted` (lib.rs 790-805). -/
def read_last_evicted (s : Store) (db : DB M) : Bytes → Option Nat :=
  fun txid => db.last_evicted (s.last_evicted_table_name, txid)

/-- `read_first_seen` (lib.rs 808-820). -/
def read_first_seen (s : Store) (db : DB M) : Bytes → Option Nat :=
  fun txid => db.first_seen (s.first_seen_table_name, txid)

/-- `read_last_revealed` (lib.rs 823-838). -/
def read_last_revealed (s : Store) (db : DB M) : Bytes → Option Nat :=
  fun did => db.last_revealed (s.last_revealed_table_name, did)

/-- `read_spks` (lib.rs 841-856). -/
def read_spks (s : Store) (db : DB M) : (Bytes × Nat) → Option Bytes :=
  fun k => db.spk (s.spk_table_name, k)

/-- Everything `read_wallet` (lib.rs 593-608) loads for one namespace. -/
@[ext]
structure ReadWallet (M : Type) where
  network : Option Network
  keychains : Nat → Option Name
  blocks : Nat → Option (Option Bytes)
  txs : Bytes → Option Bytes
  txouts : (Bytes × Nat) → Option (Nat × Bytes)
  anchors : (Bytes × Bytes) → Option M
  last_seen : Bytes → Option Nat
  last_evicted : Bytes → Option Nat
  first_seen : Bytes → Option Nat
  last_revealed : Bytes → Option Nat
  spk : (Bytes × Nat) → Option Bytes

/-- `read_wallet`: load every entity kind of the namespace. -/
def read_wallet (s : Store) (db : DB M) : ReadWallet M :=
  ⟨read_network s db, read_keychains s db, read_blocks s db, read_txs s db,
   read_txouts s db, read_anchors s db, read_last_seen s db,
   read_last_evicted s db, read_first_seen s db, read_last_revealed s db,
   read_spks s db⟩

/-! ## The per-entity codec layer: the on-disk row each domain value maps
to when persisted, and the decoding the read path applies to it.  External
collaborator codecs (ciborium for transactions, miniscript for descriptor
strings, and the byte views of the hash newtypes) are parameters. -/

/-- NetworkRecord row value: `network.to_string()`. -/
def encNetworkRow (n : Network) : Name := n.toText
/-- NetworkRecord decoding: `Network::from_str`. -/
def decNetworkRow (t : Name) : Option Network := networkOfText t

/-- DescriptorRecord row value for an external descriptor type `D`:
`desc.to_string()` via the external `toStr`. -/
def encDescRow (toStr : D → Name) (d : D) : Name := toStr d
/-- DescriptorRecord decoding: `Descriptor::from_str` via the external
`parse`. -/
def decDescRow (parse : Name → Option D) (t : Name) : Option D := parse t

/-- ChainBlock row: key `height` (redb-native u32), value
`hash.to_byte_array()`. -/
def encBlockRow (height : Nat) (hash : Bytes) : Nat × Bytes := (height, hash)
/-- ChainBlock decoding: `BlockHash::from_byte_array(hash.value())`. -/
def decBlockRow (row : Nat × Bytes) : Nat × Bytes := (row.1, row.2)

/-- TransactionRecord row: key `compute_txid().to_byte_array()`, value the
ciborium serialization. -/
def encTxRow (t : Tx) : Bytes × Bytes := (t.txid, t.ser)
/-- TransactionRecord decoding: `ciborium::from_reader` (external `deser`)
on the stored value bytes. -/
def decTxRow (deser : Bytes → Option Tx) (row : Bytes × Bytes) : Option Tx :=
  deser row.2

/-- OutputRecord row: key `(txid bytes, vout)`, value
`(value.to_sat(), script_pubkey.into_bytes())`. -/
def encTxoutRow (op : Bytes × Nat) (v : Nat × Bytes) :
    (Bytes × Nat) × (Nat × Bytes) := (op, v)
/-- OutputRecord decoding (lib.rs 733-741): rebuild the outpoint and the
txout from the stored tuple. -/
def decTxoutRow (row : (Bytes × Nat) × (Nat × Bytes)) :
    (Bytes × Nat) × (Nat × Bytes) := ((row.1.1, row.1.2), (row.2.1, row.2.2))

/-- AnchorRecord row (lib.rs 477-481): key
`(txid bytes, 36-byte block id)`, value the variant metadata. -/
def encAnchorRow (impl : AnchorImpl A M) (p : A × Bytes) : (Bytes × Bytes) × M :=
  ((p.2, blockIdBytes (impl.anchor_block p.1)), impl.metadata p.1)
/-- AnchorRecord decoding (lib.rs 757-768). -/
def decAnchorRow (impl : AnchorImpl A M) (row : (Bytes × Bytes) × M) : A × Bytes :=
  read_anchor_entry impl row.1 row.2

/-- ObservationFlag row (all three flavours): key txid bytes, value the
u64 timestamp. -/
def encFlagRow (txid : Bytes) (t : Nat) : Bytes × Nat := (txid, t)
/-- ObservationFlag decoding. -/
def decFlagRow (row : Bytes × Nat) : Bytes × Nat := (row.1, row.2)

/-- KeyRevealIndex row: key descriptor-id bytes, value the u32 index. -/
def encLastRevealedRow (did : Bytes) (idx : Nat) : Bytes × Nat := (did, idx)
/-- KeyRevealIndex decoding. -/
def decLastRevealedRow (row : Bytes × Nat) : Bytes × Nat := (row.1, row.2)

/-- ScriptCacheEntry row: key `(descriptor id bytes, index)`, value
`script.to_bytes()`. -/
def encSpkRow (k : Bytes × Nat) (script : Bytes) : (Bytes × Nat) × Bytes :=
  (k, script)
/-- ScriptCacheEntry decoding: `ScriptBuf::from_bytes`. -/
def decSpkRow (row : (Bytes × Nat) × Bytes) : (Bytes × Nat) × Bytes :=
  ((row.1.1, row.1.2), row.2)

/-- The ten entity suffixes `Store::new` appends to the wallet name
(lib.rs 193-212). -/
def tableSuffixes : List Name :=
  ["_keychain".data, "_blocks".data, "_txs".data, "_txouts".data, "_anchors".data,
   "_last_seen".data, "_last_evicted".data, "_first_seen".data,
   "_last_revealed".data, "_spk".data]

/-- Byte-lexicographic order on byte strings: how redb compares `[u8; N]`
keys (and so the 36-byte block-id component of the anchors key), and the
iteration order of `table.iter()`. -/
def lexLt : Bytes → Bytes → Bool
  | [], [] => false
  | [], _ :: _ => true
  | _ :: _, [] => false
  | a :: as, b :: bs => if a < b then true else if b < a then false else lexLt as bs

/-! # Theorems

## Generic single-table loop lemmas -/

theorem upd_ne [DecidableEq K] (m : K → Option V) (k q : K) (v : V) (h : q ≠ k) :
    upd m k v q = m q := by
  simp [upd, h]

theorem upd_eq [DecidableEq K] (m : K → Option V) (k : K) (v : V) :
    upd m k v k = some v := by
  simp [upd]

theorem insertAll_frame [DecidableEq K] (tbl : Name) (key : E → K) (val : E → V)
    (es : List E) (m : (Name × K) → Option V) (k : Name × K)
    (hk : k.1 ≠ tbl ∨ k.2 ∉ es.map key) :
    insertAll tbl key val es m k = m k := by
  induction es generalizing m with
  | nil => rfl
  | cons e es ih =>
      have hne : k ≠ (tbl, key e) := by
        rcases hk with h | h
        · intro hc; exact h (by rw [hc])
        · intro hc; exact h (by rw [hc]; simp)
      have hk' : k.1 ≠ tbl ∨ k.2 ∉ es.map key := by
        rcases hk with h | h
        · exact Or.inl h
        · exact Or.inr (fun hc => h (by simp [hc]))
      calc insertAll tbl key val (e :: es) m k
          = insertAll tbl key val es (upd m (tbl, key e) (val e)) k := rfl
        _ = upd m (tbl, key e) (val e) k := ih _ hk'
        _ = m k := upd_ne _ _ _ _ hne

theorem insertAll_mem [DecidableEq K] (tbl : Name) (key : E → K) (val : E → V)
    (es : List E) (m : (Name × K) → Option V) (e : E)
    (hnd : (es.map key).Nodup) (he : e ∈ es) :
    insertAll tbl key val es m (tbl, key e) = some (val e) := by
  induction es generalizing m with
  | nil => cases he
  | cons e0 es ih =>
      rcases List.mem_cons.mp he with rfl | hmem
      · have hnot : key e ∉ es.map key := by
          simpa using (List.nodup_cons.mp hnd).1
        calc insertAll tbl key val (e :: es) m (tbl, key e)
            = insertAll tbl key val es (upd m (tbl, key e) (val e)) (tbl, key e) := rfl
          _ = upd m (tbl, key e) (val e) (tbl, key e) :=
              insertAll_frame _ _ _ _ _ _ (Or.inr hnot)
          _ = some (val e) := upd_eq _ _ _
      · exact ih _ (List.nodup_cons.mp hnd).2 hmem

theorem blocksFold_frame [DecidableEq K] (tbl : Name) (bs : List (K × Option V))
    (m : (Name × K) → Option V) (k : Name × K)
    (hk : k.1 ≠ tbl ∨ k.2 ∉ bs.map Prod.fst) :
    blocksFold tbl bs m k = m k := by
  induction bs generalizing m with
  | nil => rfl
  | cons p bs ih =>
      have hne : k ≠ (tbl, p.1) := by
        rcases hk with h | h
        · intro hc; exact h (by rw [hc])
        · intro hc; exact h (by rw [hc]; simp)
      have hk' : k.1 ≠ tbl ∨ k.2 ∉ bs.map Prod.fst := by
        rcases hk with h | h
        · exact Or.inl h
        · exact Or.inr (fun hc => h (by simp [hc]))
      have hstep : blocksStep tbl m p k = m k := by
        cases hv : p.2 with
        | some v => simp [blocksStep, hv, upd, hne]
        | none => simp [blocksStep, hv, del, hne]
      calc blocksFold tbl (p :: bs) m k
          = blocksFold tbl bs (blocksStep tbl m p) k := rfl
        _ = blocksStep tbl m p k := ih _ hk'
        _ = m k := hstep

theorem blocksFold_mem_some [DecidableEq K] (tbl : Name) (bs : List (K × Option V))
    (m : (Name × K) → Option V) (h : K) (v : V)
    (hnd : (bs.map Prod.fst).Nodup) (hmem : (h, some v) ∈ bs) :
    blocksFold tbl bs m (tbl, h) = some v := by
  induction bs generalizing m with
  | nil => cases hmem
  | cons p bs ih =>
      rcases List.mem_cons.mp hmem with rfl | hmem'
      · have hnot : h ∉ bs.map Prod.fst := by
          simpa using (List.nodup_cons.mp hnd).1
        calc blocksFold tbl ((h, some v) :: bs) m (tbl, h)
            = blocksFold tbl bs (blocksStep tbl m (h, some v)) (tbl, h) := rfl
          _ = blocksStep tbl m (h, some v) (tbl, h) :=
              blocksFold_frame _ _ _ _ (Or.inr hnot)
          _ = some v := by simp [blocksStep, upd]
      · exact ih _ (List.nodup_cons.mp hnd).2 hmem'

theorem blocksFold_mem_none [DecidableEq K] (tbl : Name) (bs : List (K × Option V))
    (m : (Name × K) → Option V) (h : K)
    (hnd : (bs.map Prod.fst).Nodup) (hmem : (h, (none : Option V)) ∈ bs) :
    blocksFold tbl bs m (tbl, h) = none := by
  induction bs generalizing m with
  | nil => cases hmem
  | cons p bs ih =>
      rcases List.mem_cons.mp hmem with rfl | hmem'
      · have hnot : h ∉ bs.map Prod.fst := by
          simpa using (List.nodup_cons.mp hnd).1
        calc blocksFold tbl ((h, (none : Option V)) :: bs) m (tbl, h)
            = blocksFold tbl bs (blocksStep tbl m (h, none)) (tbl, h) := rfl
          _ = blocksStep tbl m (h, none) (tbl, h) :=
              blocksFold_frame _ _ _ _ (Or.inr hnot)
          _ = none := by simp [blocksStep, del]
      · exact ih _ (List.nodup_cons.mp hnd).2 hmem'

theorem guardedInsertAll_ok_frame [DecidableEq K] (tbl : Name) (guard : E → Bool)
    (msg : Name) (key : E → K) (val : E → V) (es : List E)
    (m m' : (Name × K) → Option V)
    (hok : guardedInsertAll tbl guard msg key val es m = .ok m') (k : Name × K)
    (hk : k.1 ≠ tbl ∨ k.2 ∉ es.map key) :
    m' k = m k := by
  induction es generalizing m with
  | nil =>
      simp only [guardedInsertAll] at hok
      cases hok; rfl
  | cons e es ih =>
      have hne : k ≠ (tbl, key e) := by
        rcases hk with h | h
        · intro hc; exact h (by rw [hc])
        · intro hc; exact h (by rw [hc]; simp)
      have hk' : k.1 ≠ tbl ∨ k.2 ∉ es.map key := by
        rcases hk with h | h
        · exact Or.inl h
        · exact Or.inr (fun hc => h (by simp [hc]))
      simp only [guardedInsertAll] at hok
      by_cases hg : guard e
      · rw [if_pos hg] at hok
        calc m' k = upd m (tbl, key e) (val e) k := ih _ hok hk'
          _ = m k := upd_ne _ _ _ _ hne
      · rw [if_neg hg] at hok
        cases hok

theorem guardedInsertAll_ok_mem [DecidableEq K] (tbl : Name) (guard : E → Bool)
    (msg : Name) (key : E → K) (val : E → V) (es : List E)
    (m m' : (Name × K) → Option V)
    (hok : guardedInsertAll tbl guard msg key val es m = .ok m') (e : E)
    (hnd : (es.map key).Nodup) (he : e ∈ es) :
    m' (tbl, key e) = some (val e) := by
  induction es generalizing m with
  | nil => cases he
  | cons e0 es ih =>
      simp only [guardedInsertAll] at hok
      by_cases hg : guard e0
      · rw [if_pos hg] at hok
        rcases List.mem_cons.mp he with rfl | hmem
        · have hnot : key e ∉ es.map key := by
            simpa using (List.nodup_cons.mp hnd).1
          calc m' (tbl, key e)
              = upd m (tbl, key e) (val e) (tbl, key e) :=
                guardedInsertAll_ok_frame _ _ _ _ _ _ _ _ hok _ (Or.inr hnot)
            _ = some (val e) := upd_eq _ _ _
        · exact ih _ hok (List.nodup_cons.mp hnd).2 hmem
      · rw [if_neg hg] at hok
        cases hok

theorem guardedInsertAll_dangling [DecidableEq K] (tbl : Name) (guard : E → Bool)
    (msg : Name) (key : E → K) (val : E → V) (es : List E)
    (m : (Name × K) → Option V) (e : E) (he : e ∈ es) (hg : guard e = false) :
    guardedInsertAll tbl guard msg key val es m = .error msg := by
  induction es generalizing m with
  | nil => cases he
  | cons e0 es ih =>
      rcases List.mem_cons.mp he with rfl | hmem
      · simp [guardedInsertAll, hg]
      · simp only [guardedInsertAll]
        by_cases hg0 : guard e0
        · rw [if_pos hg0]; exact ih _ hmem
        · rw [if_neg hg0]

/-! ## Codec helper lemmas -/

theorem except_map_ok {e : Except ε α} {f : α → β} {b : β}
    (h : e.map f = .ok b) : ∃ a, e = .ok a ∧ b = f a := by
  cases e with
  | error msg => simp [Except.map] at h
  | ok a => exact ⟨a, rfl, by simpa [Except.map] using h.symm⟩

theorem fromLE4_toLE4 (n : Nat) (h : n < 2 ^ 32) : fromLE4 (toLE4 n) = n := by
  have h' : n < 4294967296 := by omega
  simp only [toLE4, fromLE4]
  omega

theorem toLE4_length (n : Nat) : (toLE4 n).length = 4 := rfl

theorem blockIdOfBytes_blockIdBytes (b : BlockId) (hh : b.height < 2 ^ 32) :
    blockIdOfBytes (blockIdBytes b) = b := by
  obtain ⟨height, hash⟩ := b
  simp only [blockIdOfBytes, blockIdBytes]
  rw [List.take_left' (toLE4_length height), List.drop_left' (toLE4_length height)]
  rw [fromLE4_toLE4 height hh]

theorem cbt_reconstruction (a : ConfirmationBlockTime) :
    cbtAnchor.from_id (cbtAnchor.anchor_block a) (cbtAnchor.metadata a) = a := rfl

theorem blockId_reconstruction (b : BlockId) :
    blockIdAnchor.from_id (blockIdAnchor.anchor_block b) (blockIdAnchor.metadata b) = b := rfl

/-! ## Claim theorems -/

/-- Claim C9: for each provided anchor variant (`ConfirmationBlockTime`
with a u64 confirmation-time metadata payload, and `BlockId` with an empty
metadata payload), reconstruction from the extracted chain position plus
metadata is the identity: `from_id(a.anchor_block(), a.metadata()) == a`,
so one physical anchors table layout serves both variants without loss. -/
theorem anchor_variant_reconstruction_identity :
    (∀ a : ConfirmationBlockTime,
        cbtAnchor.from_id (cbtAnchor.anchor_block a) (cbtAnchor.metadata a) = a)
    ∧ (∀ b : BlockId,
        blockIdAnchor.from_id (blockIdAnchor.anchor_block b) (blockIdAnchor.metadata b) = b) :=
  ⟨fun _ => rfl, fun _ => rfl⟩

/-- Claim C10: the blocks map produced by `read_local_chain` /
`read_blocks` maps every height it contains to `Some(hash)`: a loaded
changeset never contains a tombstone (`None`) entry, regardless of which
tombstones were ever persisted. -/
theorem read_blocks_never_yields_tombstone {M : Type} (s : Store) (db : DB M)
    (h : Nat) (v : Option Bytes) (hv : read_blocks s db h = some v) :
    ∃ hash, v = some hash := by
  unfold read_blocks at hv
  cases hb : db.blocks (s.blocks_table_name, h) with
  | none => rw [hb] at hv; cases hv
  | some hash =>
      rw [hb] at hv
      exact ⟨hash, by cases hv; rfl⟩

/-- Witness for C10 at a concrete database holding one block row. -/
theorem read_blocks_never_yields_tombstone_witness :
    ∃ hash, (some [7] : Option Bytes) = some hash :=
  read_blocks_never_yields_tombstone ⟨"w".data⟩
    ({ emptyDB with
        blocks := upd emp (Store.blocks_table_name ⟨"w".data⟩, 0) [7] } : DB Nat)
    0 (some [7]) rfl

/-- Claim C4: each `(height, Some(hash))` entry of a persisted blocks
fragment upserts that height, each `(height, None)` entry deletes that
height, deleting a height with no stored entry is a no-op, and persisting
`{2: None}` after `{0: hashB, 1: hashD, 2: hashK}` leaves the stored map
equal to `{0: hashB, 1: hashD}`. -/
theorem persist_blocks_tombstone_semantics :
    (∀ (M : Type) (s : Store) (bs : List (Nat × Option Bytes)) (db : DB M) (h : Nat),
      (bs.map Prod.fst).Nodup →
        (∀ v, (h, some v) ∈ bs →
            (persist_blocks s bs db).blocks (s.blocks_table_name, h) = some v)
        ∧ ((h, none) ∈ bs →
            (persist_blocks s bs db).blocks (s.blocks_table_name, h) = none)
        ∧ (h ∉ bs.map Prod.fst →
            (persist_blocks s bs db).blocks (s.blocks_table_name, h)
              = db.blocks (s.blocks_table_name, h)))
    ∧ (∀ h : Nat,
        (persist_blocks ⟨"w".data⟩ [(2, none)]
            (persist_blocks ⟨"w".data⟩
              [(0, some [11]), (1, some [13]), (2, some [17])]
              (emptyDB : DB Nat))).blocks (Store.blocks_table_name ⟨"w".data⟩, h)
          = upd (upd (emp : (Name × Nat) → Option Bytes)
              (Store.blocks_table_name ⟨"w".data⟩, 0) [11])
              (Store.blocks_table_name ⟨"w".data⟩, 1) [13]
              (Store.blocks_table_name ⟨"w".data⟩, h)) := by
  constructor
  · intro M s bs db h hnd
    refine ⟨fun v hv => ?_, fun hv => ?_, fun hnot => ?_⟩
    · exact blocksFold_mem_some _ _ _ _ _ hnd hv
    · exact blocksFold_mem_none _ _ _ _ hnd hv
    · exact blocksFold_frame _ _ _ _ (Or.inr hnot)
  · intro h
    simp only [persist_blocks, blocksFold, List.foldl, blocksStep, upd, del, emp,
      emptyDB, Prod.mk.injEq, true_and]
    by_cases h2 : h = 2 <;> by_cases h1 : h = 1 <;> by_cases h0 : h = 0 <;>
      simp_all

/-- Witness for C4: a tombstone for an absent height is a no-op, checked
at height 5 on an empty database. -/
theorem persist_blocks_tombstone_semantics_witness :
    (persist_blocks ⟨"w".data⟩ [(5, none)] (emptyDB : DB Nat)).blocks
      (Store.blocks_table_name ⟨"w".data⟩, 5) = none := by
  have hgen := (persist_blocks_tombstone_semantics.1 Nat ⟨"w".data⟩
    [(5, none)] emptyDB 5 (by decide)).2.1 (by simp)
  simpa [emptyDB, emp] using hgen

/-- Claim C7 counterexample: `persist_keychains` stores label 0 ↦ "descA",
then a second call mapping label 0 to a different descriptor leaves
"descB" stored — the engine rewrote the descriptor record, so the claim
that a later persist leaves the stored descriptor unchanged is false. -/
theorem persist_keychains_rewrites_counterexample :
    ((persist_keychains ⟨"w".data⟩ [(0, "descB".data)]
        (persist_keychains ⟨"w".data⟩ [(0, "descA".data)] (emptyDB : DB Nat))).keychains
      (Store.keychain_table_name ⟨"w".data⟩, 0) = some "descB".data)
    ∧ "descB".data ≠ "descA".data := by
  exact ⟨by decide, by decide⟩

/-- Claim C7 (amended): `persist_keychains` upserts: after a persist call,
each label in the incoming changeset maps to the incoming descriptor,
overwriting any stored one.  Descriptor immutability is only assumed in a
source comment, never enforced. -/
theorem persist_keychains_upserts {M : Type} (s : Store) (cs : List (Nat × Name))
    (db : DB M) (l : Nat) (d : Name)
    (hnd : (cs.map Prod.fst).Nodup) (hmem : (l, d) ∈ cs) :
    (persist_keychains s cs db).keychains (s.keychain_table_name, l) = some d :=
  insertAll_mem _ _ _ _ _ (l, d) hnd hmem

/-- Witness for the amended C7 at a two-descriptor changeset. -/
theorem persist_keychains_upserts_witness :
    (persist_keychains ⟨"w".data⟩ [(0, "desc0".data), (1, "desc1".data)]
      (emptyDB : DB Nat)).keychains (Store.keychain_table_name ⟨"w".data⟩, 1)
      = some "desc1".data :=
  persist_keychains_upserts ⟨"w".data⟩ _ _ 1 _ (by decide) (by decide)

/-- Claim C2 counterexample: with `last_seen = {tx: 100}` stored (and the
transaction present in the committed txs table), persisting
`last_seen = {tx: 50}` stores 50, not `max 100 50 = 100`: the persist
decreased the stored `last_seen` value, refuting the max-merge claim. -/
theorem last_seen_overwrite_counterexample :
    (({ emptyDB with
          txs := upd emp (Store.txs_table_name ⟨"w".data⟩, List.replicate 32 0) [0],
          last_seen := upd emp
            (Store.last_seen_table_name ⟨"w".data⟩, List.replicate 32 0) 100 }
        : DB Nat).last_seen
      (Store.last_seen_table_name ⟨"w".data⟩, List.replicate 32 0) = some 100)
    ∧ ((persist_tx_graph cbtAnchor ⟨"w".data⟩
          ⟨[], [], [], [(List.replicate 32 0, 50)], [], []⟩
          { emptyDB with
            txs := upd emp (Store.txs_table_name ⟨"w".data⟩, List.replicate 32 0) [0],
            last_seen := upd emp
              (Store.last_seen_table_name ⟨"w".data⟩, List.replicate 32 0) 100 }).db.last_seen
        (Store.last_seen_table_name ⟨"w".data⟩, List.replicate 32 0) = some 50)
    ∧ ((persist_tx_graph cbtAnchor ⟨"w".data⟩
          ⟨[], [], [], [(List.replicate 32 0, 50)], [], []⟩
          { emptyDB with
            txs := upd emp (Store.txs_table_name ⟨"w".data⟩, List.replicate 32 0) [0],
            last_seen := upd emp
              (Store.last_seen_table_name ⟨"w".data⟩, List.replicate 32 0) 100 }).panicMsg
        = none)
    ∧ 50 < 100 := by
  exact ⟨by decide, by decide, by decide, by decide⟩

/-- Claim C2 (amended): the persists of `last_seen`, `last_evicted`,
`first_seen` and `last_revealed` are last-write-wins upserts: for every
key in the incoming fragment the stored value afterwards equals the
incoming value, whatever was stored before (no max/min merging happens in
this layer). -/
theorem persist_flags_last_write_wins {M : Type} (s : Store) (snap db : DB M)
    (csTxs : List Tx) (entries : List (Bytes × Nat)) (txid : Bytes) (t : Nat)
    (hnd : (entries.map Prod.fst).Nodup) (hmem : (txid, t) ∈ entries) :
    (∀ db', persist_last_seen s snap entries csTxs db = .ok db' →
        db'.last_seen (s.last_seen_table_name, txid) = some t)
    ∧ (∀ db', persist_last_evicted s snap entries csTxs db = .ok db' →
        db'.last_evicted (s.last_evicted_table_name, txid) = some t)
    ∧ (∀ db', persist_first_seen s snap entries csTxs db = .ok db' →
        db'.first_seen (s.first_seen_table_name, txid) = some t)
    ∧ (persist_last_revealed s entries db).last_revealed
        (s.last_revealed_table_name, txid) = some t := by
  refine ⟨?_, ?_, ?_, ?_⟩
  · intro db' hok
    unfold persist_last_seen at hok
    obtain ⟨m, hm, rfl⟩ := except_map_ok hok
    exact guardedInsertAll_ok_mem _ _ _ _ _ _ _ _ hm (txid, t) hnd hmem
  · intro db' hok
    unfold persist_last_evicted at hok
    obtain ⟨m, hm, rfl⟩ := except_map_ok hok
    exact guardedInsertAll_ok_mem _ _ _ _ _ _ _ _ hm (txid, t) hnd hmem
  · intro db' hok
    unfold persist_first_seen at hok
    obtain ⟨m, hm, rfl⟩ := except_map_ok hok
    exact guardedInsertAll_ok_mem _ _ _ _ _ _ _ _ hm (txid, t) hnd hmem
  · exact insertAll_mem _ _ _ _ _ (txid, t) hnd hmem

/-- Witness for the amended C2: a concrete `persist_last_seen` call whose
guard passes stores exactly the incoming value. -/
theorem persist_flags_last_write_wins_witness :
    ({ (emptyDB : DB Nat) with
        last_seen := upd (emptyDB : DB Nat).last_seen
          (Store.last_seen_table_name ⟨"w".data⟩, List.replicate 32 0) 5 }).last_seen
      (Store.last_seen_table_name ⟨"w".data⟩, List.replicate 32 0) = some 5 :=
  (persist_flags_last_write_wins ⟨"w".data⟩ emptyDB emptyDB
      [⟨List.replicate 32 0, []⟩] [(List.replicate 32 0, 5)]
      (List.replicate 32 0) 5 (by decide) (by decide)).1 _ rfl

/-- Claim C6 counterexample: heights are little-endian encoded inside the
36-byte anchors key component, so for heights 1 < 256 the encoded key of 1
does not precede the encoded key of 256 in byte-lexicographic order (the
order redb compares `[u8; 36]` keys in) — it follows it. -/
theorem height_key_order_counterexample :
    (1 < 256)
    ∧ lexLt (blockIdBytes ⟨1, List.replicate 32 0⟩)
        (blockIdBytes ⟨256, List.replicate 32 0⟩) = false
    ∧ lexLt (blockIdBytes ⟨256, List.replicate 32 0⟩)
        (blockIdBytes ⟨1, List.replicate 32 0⟩) = true := by
  exact ⟨by decide, by decide, by decide⟩

/-- Claim C6 (amended): the little-endian height encoding is
order-preserving only while the height stays within the first byte: for
heights a < b < 256 (same hash bytes), the encoded key of a precedes the
encoded key of b lexicographically; beyond one byte the orders diverge
(see the counterexample). -/
theorem height_key_order_below_256 (a b : Nat) (hash : Bytes)
    (hab : a < b) (hb : b < 256) :
    lexLt (blockIdBytes ⟨a, hash⟩) (blockIdBytes ⟨b, hash⟩) = true := by
  have h1 : a % 256 < b % 256 := by omega
  simp only [blockIdBytes, toLE4, List.cons_append]
  rw [lexLt]
  simp [h1]

/-- Witness for the amended C6 at heights 3 < 7. -/
theorem height_key_order_below_256_witness :
    lexLt (blockIdBytes ⟨3, List.replicate 32 0⟩)
      (blockIdBytes ⟨7, List.replicate 32 0⟩) = true :=
  height_key_order_below_256 3 7 (List.replicate 32 0) (by decide) (by decide)

/-- Claim C5: for every entity kind (network, descriptors, blocks,
transactions, txouts, anchors, observation flags, last_revealed, script
cache) decoding the encoded on-disk representation yields the value back,
including boundary values; for the externally-serialized kinds
(descriptors via miniscript, transactions via ciborium) the store
delegates, so their round-trip is exactly the external codec's. -/
theorem entity_codec_roundtrip :
    (∀ n : Network, decNetworkRow (encNetworkRow n) = some n)
    ∧ (∀ (D : Type) (toStr : D → Name) (parse : Name → Option D) (d : D),
        parse (toStr d) = some d → decDescRow parse (encDescRow toStr d) = some d)
    ∧ (∀ (height : Nat) (hash : Bytes), decBlockRow (encBlockRow height hash) = (height, hash))
    ∧ (∀ (deser : Bytes → Option Tx) (t : Tx),
        deser t.ser = some t → decTxRow deser (encTxRow t) = some t)
    ∧ (∀ (op : Bytes × Nat) (v : Nat × Bytes), decTxoutRow (encTxoutRow op v) = (op, v))
    ∧ (∀ p : ConfirmationBlockTime × Bytes, p.1.block_id.height < 2 ^ 32 →
        decAnchorRow cbtAnchor (encAnchorRow cbtAnchor p) = p)
    ∧ (∀ p : BlockId × Bytes, p.1.height < 2 ^ 32 →
        decAnchorRow blockIdAnchor (encAnchorRow blockIdAnchor p) = p)
    ∧ (∀ (txid : Bytes) (t : Nat), decFlagRow (encFlagRow txid t) = (txid, t))
    ∧ (∀ (did : Bytes) (idx : Nat), decLastRevealedRow (encLastRevealedRow did idx) = (did, idx))
    ∧ (∀ (k : Bytes × Nat) (script : Bytes), decSpkRow (encSpkRow k script) = (k, script)) := by
  refine ⟨?_, ?_, ?_, ?_, ?_, ?_, ?_, ?_, ?_, ?_⟩
  · intro n; cases n <;> rfl
  · intro D toStr parse d h; exact h
  · intro height hash; rfl
  · intro deser t h; exact h
  · intro op v; rfl
  · intro p hh
    obtain ⟨a, txid⟩ := p
    simp only [encAnchorRow, decAnchorRow, read_anchor_entry]
    rw [blockIdOfBytes_blockIdBytes (cbtAnchor.anchor_block a) hh, cbt_reconstruction a]
  · intro p hh
    obtain ⟨b, txid⟩ := p
    simp only [encAnchorRow, decAnchorRow, read_anchor_entry]
    rw [blockIdOfBytes_blockIdBytes (blockIdAnchor.anchor_block b) hh, blockId_reconstruction b]
  · intro txid t; rfl
  · intro did idx; rfl
  · intro k script; rfl

/-- Witness for C5 at boundary values: height u32::MAX and height 0 in
anchor keys, the empty script, zero-length (`None`) anchor metadata, and a
concrete external transaction codec. -/
theorem entity_codec_roundtrip_witness :
    (decNetworkRow (encNetworkRow .regtest) = some .regtest)
    ∧ (decAnchorRow cbtAnchor (encAnchorRow cbtAnchor
        (⟨⟨4294967295, List.replicate 32 7⟩, 0⟩, List.replicate 32 1))
        = (⟨⟨4294967295, List.replicate 32 7⟩, 0⟩, List.replicate 32 1))
    ∧ (decAnchorRow blockIdAnchor (encAnchorRow blockIdAnchor
        (⟨0, List.replicate 32 9⟩, List.replicate 32 2))
        = (⟨0, List.replicate 32 9⟩, List.replicate 32 2))
    ∧ (decTxRow (fun _ => some ⟨[], []⟩) (encTxRow ⟨[], []⟩) = some ⟨[], []⟩)
    ∧ (decSpkRow (encSpkRow (List.replicate 32 3, 0) []) = ((List.replicate 32 3, 0), [])) := by
  refine ⟨entity_codec_roundtrip.1 .regtest, ?_, ?_, ?_, ?_⟩
  · exact entity_codec_roundtrip.2.2.2.2.2.1 _ (by decide)
  · exact entity_codec_roundtrip.2.2.2.2.2.2.1 _ (by decide)
  · exact entity_codec_roundtrip.2.2.2.1 _ _ rfl
  · exact entity_codec_roundtrip.2.2.2.2.2.2.2.2.2 _ _

/-! ## Referential-integrity (panic) helper lemmas -/

theorem persist_anchors_dangling (impl : AnchorImpl A M) (s : Store) (snap : DB M)
    (anchors : List (A × Bytes)) (csTxs : List Tx) (db : DB M) (p : A × Bytes)
    (hp : p ∈ anchors) (hg : txidCovered s snap csTxs p.2 = false) :
    persist_anchors impl s snap anchors csTxs db = .error anchorsPanicMsg := by
  unfold persist_anchors
  rw [guardedInsertAll_dangling _ _ _ _ _ anchors db.anchors p hp hg]
  rfl

theorem persist_last_seen_dangling (s : Store) (snap : DB M)
    (entries : List (Bytes × Nat)) (csTxs : List Tx) (db : DB M) (p : Bytes × Nat)
    (hp : p ∈ entries) (hg : txidCovered s snap csTxs p.1 = false) :
    persist_last_seen s snap entries csTxs db = .error lastSeenPanicMsg := by
  unfold persist_last_seen
  rw [guardedInsertAll_dangling _ _ _ _ _ entries db.last_seen p hp hg]
  rfl

theorem persist_last_evicted_dangling (s : Store) (snap : DB M)
    (entries : List (Bytes × Nat)) (csTxs : List Tx) (db : DB M) (p : Bytes × Nat)
    (hp : p ∈ entries) (hg : txidCovered s snap csTxs p.1 = false) :
    persist_last_evicted s snap entries csTxs db = .error lastEvictedPanicMsg := by
  unfold persist_last_evicted
  rw [guardedInsertAll_dangling _ _ _ _ _ entries db.last_evicted p hp hg]
  rfl

theorem persist_first_seen_dangling (s : Store) (snap : DB M)
    (entries : List (Bytes × Nat)) (csTxs : List Tx) (db : DB M) (p : Bytes × Nat)
    (hp : p ∈ entries) (hg : txidCovered s snap csTxs p.1 = false) :
    persist_first_seen s snap entries csTxs db = .error firstSeenPanicMsg := by
  unfold persist_first_seen
  rw [guardedInsertAll_dangling _ _ _ _ _ entries db.first_seen p hp hg]
  rfl

/-- A tx_graph changeset with a dangling reference makes the whole call
abort: the run returns the untouched pre-call database plus a panic
message. -/
theorem persist_tx_graph_dangling (impl : AnchorImpl A M) (s : Store)
    (cs : TxGraphCS A) (db : DB M) (hd : TxGraphCS.hasDangling s db cs) :
    ∃ msg, persist_tx_graph impl s cs db = ⟨db, some msg⟩ := by
  simp only [persist_tx_graph]
  rcases hd with ⟨p, hp, hg⟩ | ⟨p, hp, hg⟩ | ⟨p, hp, hg⟩ | ⟨p, hp, hg⟩
  · rw [persist_anchors_dangling impl s db cs.anchors cs.txs _ p hp hg]
    exact ⟨anchorsPanicMsg, rfl⟩
  · cases ha : persist_anchors impl s db cs.anchors cs.txs
        (persist_txouts s cs.txouts (persist_txs s cs.txs db)) with
    | error msg => exact ⟨msg, rfl⟩
    | ok db3 =>
        exact ⟨lastSeenPanicMsg, by
          simp only [persist_last_seen_dangling s db cs.last_seen cs.txs db3 p hp hg]⟩
  · cases ha : persist_anchors impl s db cs.anchors cs.txs
        (persist_txouts s cs.txouts (persist_txs s cs.txs db)) with
    | error msg => exact ⟨msg, rfl⟩
    | ok db3 =>
        cases hl : persist_last_seen s db cs.last_seen cs.txs db3 with
        | error msg => exact ⟨msg, by simp only [hl]⟩
        | ok db4 =>
            exact ⟨lastEvictedPanicMsg, by
              simp only [hl,
                persist_last_evicted_dangling s db cs.last_evicted cs.txs db4 p hp hg]⟩
  · cases ha : persist_anchors impl s db cs.anchors cs.txs
        (persist_txouts s cs.txouts (persist_txs s cs.txs db)) with
    | error msg => exact ⟨msg, rfl⟩
    | ok db3 =>
        cases hl : persist_last_seen s db cs.last_seen cs.txs db3 with
        | error msg => exact ⟨msg, by simp only [hl]⟩
        | ok db4 =>
            cases hle : persist_last_evicted s db cs.last_evicted cs.txs db4 with
            | error msg => exact ⟨msg, by simp only [hl, hle]⟩
            | ok db5 =>
                exact ⟨firstSeenPanicMsg, by
                  simp only [hl, hle,
                    persist_first_seen_dangling s db cs.first_seen cs.txs db5 p hp hg]⟩

/-- Claim C1 (amended): for every changeset containing an anchor or
observation-flag entry whose transaction id is neither in the committed
transactions table nor among the transactions of the same call, the
persist operation aborts via `panic!` (a process abort with a fixed
message; the crate's `StoreError` has no dangling-reference variant and no
typed error is returned), and no partial state from the call becomes
visible: the committed database is unchanged. -/
theorem dangling_reference_panics (impl : AnchorImpl A M) (s : Store)
    (cs : TxGraphCS A) (db : DB M) (hd : TxGraphCS.hasDangling s db cs) :
    (persist_tx_graph impl s cs db).panicMsg.isSome = true
    ∧ (persist_tx_graph impl s cs db).db = db := by
  obtain ⟨msg, hrun⟩ := persist_tx_graph_dangling impl s cs db hd
  rw [hrun]
  exact ⟨rfl, rfl⟩

/-- Witness for the amended C1: one dangling `last_seen` entry on an empty
database. -/
theorem dangling_reference_panics_witness :
    ((persist_tx_graph cbtAnchor ⟨"w".data⟩
        ⟨[], [], [], [(List.replicate 32 4, 9)], [], []⟩
        (emptyDB : DB Nat)).panicMsg.isSome = true)
    ∧ ((persist_tx_graph cbtAnchor ⟨"w".data⟩
        ⟨[], [], [], [(List.replicate 32 4, 9)], [], []⟩
        (emptyDB : DB Nat)).db = emptyDB) :=
  dangling_reference_panics cbtAnchor ⟨"w".data⟩ _ _
    (Or.inr (Or.inl ⟨(List.replicate 32 4, 9), by decide, by decide⟩))

/-- Claim C1 counterexample: a changeset whose single anchor references an
unknown transaction id makes `persist_tx_graph` end in a `panic!` (process
abort) with the fixed message "txn corresponding to anchor must exist" —
not a returned `DanglingReferenceError` value carrying the txid (no such
error variant exists in the crate's `StoreError`). -/
theorem dangling_reference_no_typed_error_counterexample :
    (persist_tx_graph cbtAnchor ⟨"w".data⟩
        ⟨[], [], [(⟨⟨7, List.replicate 32 3⟩, 9⟩, List.replicate 32 1)], [], [], []⟩
        (emptyDB : DB Nat)).panicMsg = some anchorsPanicMsg := by
  decide

/-- On a panic, `persist_tx_graph`'s single write transaction is rolled
back wholesale: the committed database equals the input. -/
theorem persist_tx_graph_abort_rollback (impl : AnchorImpl A M) (s : Store)
    (cs : TxGraphCS A) (db : DB M)
    (hab : (persist_tx_graph impl s cs db).panicMsg.isSome = true) :
    (persist_tx_graph impl s cs db).db = db := by
  cases ha : persist_anchors impl s db cs.anchors cs.txs
      (persist_txouts s cs.txouts (persist_txs s cs.txs db)) with
  | error msg => simp only [persist_tx_graph, ha]
  | ok db3 =>
    cases hl : persist_last_seen s db cs.last_seen cs.txs db3 with
    | error msg => simp only [persist_tx_graph, ha, hl]
    | ok db4 =>
      cases hle : persist_last_evicted s db cs.last_evicted cs.txs db4 with
      | error msg => simp only [persist_tx_graph, ha, hl, hle]
      | ok db5 =>
        cases hf : persist_first_seen s db cs.first_seen cs.txs db5 with
        | error msg => simp only [persist_tx_graph, ha, hl, hle, hf]
        | ok db6 =>
          exfalso
          simp only [persist_tx_graph, ha, hl, hle, hf, Option.isSome_none] at hab
          exact Bool.false_ne_true hab

/-- Claim C3 (amended): `persist_wallet` is not one atomic batch: it
commits five write transactions, one per phase.  When the call aborts
(only the tx_graph phase can panic), the visible database is exactly the
result of the four already-committed phases — the failing tx_graph
transaction is rolled back wholesale, but the earlier phases' mutations
remain visible. -/
theorem persist_wallet_phase_atomicity (s : Store) (cs : WalletCS) (db : DB Nat)
    (hab : (persist_wallet s cs db).panicMsg.isSome = true) :
    (persist_wallet s cs db).db =
      persist_indexer s cs.last_revealed cs.spk_cache
        (persist_local_chain s cs.blocks
          (persist_keychains s (descChangeset cs)
            (persist_network s cs.network db))) :=
  persist_tx_graph_abort_rollback cbtAnchor s cs.tx_graph _ hab

/-- Witness for the amended C3 at a concrete aborting changeset. -/
theorem persist_wallet_phase_atomicity_witness :
    (persist_wallet ⟨"w".data⟩
        ⟨none, none, some .bitcoin, [],
          ⟨[], [], [(⟨⟨7, List.replicate 32 3⟩, 9⟩, List.replicate 32 1)], [], [], []⟩,
          [], []⟩ (emptyDB : DB Nat)).db =
      persist_indexer ⟨"w".data⟩ [] []
        (persist_local_chain ⟨"w".data⟩ []
          (persist_keychains ⟨"w".data⟩
            (descChangeset ⟨none, none, some .bitcoin, [],
              ⟨[], [], [(⟨⟨7, List.replicate 32 3⟩, 9⟩, List.replicate 32 1)], [], [], []⟩,
              [], []⟩)
            (persist_network ⟨"w".data⟩ (some .bitcoin) emptyDB))) :=
  persist_wallet_phase_atomicity ⟨"w".data⟩ _ _ (by decide)

/-- Claim C3 counterexample: a changeset carrying a network record and a
dangling anchor: the call aborts in the tx_graph phase, yet the network
mutation committed by the first phase is visible afterwards — the
`persist(changeset)` call is not atomic across its tables. -/
theorem persist_wallet_not_atomic_counterexample :
    ((persist_wallet ⟨"w".data⟩
        ⟨none, none, some .bitcoin, [],
          ⟨[], [], [(⟨⟨7, List.replicate 32 3⟩, 9⟩, List.replicate 32 1)], [], [], []⟩,
          [], []⟩ (emptyDB : DB Nat)).panicMsg.isSome = true)
    ∧ ((persist_wallet ⟨"w".data⟩
        ⟨none, none, some .bitcoin, [],
          ⟨[], [], [(⟨⟨7, List.replicate 32 3⟩, 9⟩, List.replicate 32 1)], [], [], []⟩,
          [], []⟩ (emptyDB : DB Nat)).db.network "w".data = some "bitcoin".data)
    ∧ ((emptyDB : DB Nat).network "w".data = none) :=
  ⟨by decide, by decide, by decide⟩

/-! ## Namespace isolation (C8) -/

/-- Appending the same entity suffix to two distinct wallet names yields
distinct table names. -/
theorem append_same_suffix_ne {n1 n2 : Name} (sfx : Name) (h : n1 ≠ n2) :
    n1 ++ sfx ≠ n2 ++ sfx := by
  intro hc
  have hlen : n1.length = n2.length := by
    have := congrArg List.length hc
    simp only [List.length_append] at this
    omega
  exact h (List.append_inj hc hlen).1

/-- No table name of one namespace can collide with a table name of
another namespace, even across entity kinds: no suffix in `tableSuffixes`
is a proper suffix of another, so `n1 ++ s1 = n2 ++ s2` forces equal
suffixes and equal namespaces.  This justifies modelling the database as
one map per entity kind. -/
theorem table_names_never_collide (n1 n2 s1 s2 : Name)
    (h1 : s1 ∈ tableSuffixes) (h2 : s2 ∈ tableSuffixes)
    (hc : n1 ++ s1 = n2 ++ s2) : n1 = n2 ∧ s1 = s2 := by
  have e1 : s1 <:+ n1 ++ s1 := List.suffix_append n1 s1
  have e2 : s2 <:+ n1 ++ s1 := hc ▸ List.suffix_append n2 s2
  have hmut : ∀ a ∈ tableSuffixes, ∀ b ∈ tableSuffixes, a <:+ b → a = b := by decide
  have heq : s1 = s2 := by
    rcases List.suffix_or_suffix_of_suffix e1 e2 with h | h
    · exact hmut s1 h1 s2 h2 h
    · exact (hmut s2 h2 s1 h1 h).symm
  subst heq
  exact ⟨List.append_cancel_right hc, rfl⟩

/-- No per-namespace table name collides with the shared NETWORK table
either: every suffix starts with an underscore while "network" contains
none. -/
theorem table_name_ne_network_table (n s : Name) (hs : s ∈ tableSuffixes) :
    n ++ s ≠ "network".data := by
  intro hc
  have hall : ∀ x ∈ tableSuffixes, '_' ∈ x := by decide
  have hmem : ('_' : Char) ∈ "network".data := hc ▸ List.mem_append_right n (hall s hs)
  exact absurd hmem (by decide)

theorem read_wallet_after_persist_network {M : Type} (s1 s2 : Store)
    (n : Option Network) (db : DB M) (hne : s1.wallet_name ≠ s2.wallet_name) :
    read_wallet s2 (persist_network s1 n db) = read_wallet s2 db := by
  cases n with
  | none => rfl
  | some nv =>
      apply ReadWallet.ext <;> try rfl
      show read_network s2 { db with network := upd db.network s1.wallet_name nv.toText }
        = read_network s2 db
      unfold read_network
      show (upd db.network s1.wallet_name nv.toText s2.wallet_name).bind networkOfText
        = (db.network s2.wallet_name).bind networkOfText
      rw [upd_ne _ _ _ _ (fun hc => hne hc.symm)]

theorem read_wallet_after_persist_keychains {M : Type} (s1 s2 : Store)
    (cs : List (Nat × Name)) (db : DB M) (hne : s1.wallet_name ≠ s2.wallet_name) :
    read_wallet s2 (persist_keychains s1 cs db) = read_wallet s2 db := by
  have hn2 : s2.wallet_name ≠ s1.wallet_name := fun hc => hne hc.symm
  apply ReadWallet.ext <;> try rfl
  funext l
  exact insertAll_frame _ _ _ _ _ _ (Or.inl (append_same_suffix_ne _ hn2))

theorem read_wallet_after_persist_local_chain {M : Type} (s1 s2 : Store)
    (bs : List (Nat × Option Bytes)) (db : DB M)
    (hne : s1.wallet_name ≠ s2.wallet_name) :
    read_wallet s2 (persist_local_chain s1 bs db) = read_wallet s2 db := by
  have hn2 : s2.wallet_name ≠ s1.wallet_name := fun hc => hne hc.symm
  apply ReadWallet.ext <;> try rfl
  funext h
  show ((persist_blocks s1 bs db).blocks (s2.blocks_table_name, h)).map some
    = (db.blocks (s2.blocks_table_name, h)).map some
  rw [show (persist_blocks s1 bs db).blocks = blocksFold s1.blocks_table_name bs db.blocks from rfl]
  rw [blocksFold_frame _ _ _ _ (Or.inl (append_same_suffix_ne _ hn2))]

theorem read_wallet_after_persist_indexer {M : Type} (s1 s2 : Store)
    (lr : List (Bytes × Nat)) (spk : List (Bytes × List (Nat × Bytes)))
    (db : DB M) (hne : s1.wallet_name ≠ s2.wallet_name) :
    read_wallet s2 (persist_indexer s1 lr spk db) = read_wallet s2 db := by
  have hn2 : s2.wallet_name ≠ s1.wallet_name := fun hc => hne hc.symm
  apply ReadWallet.ext <;> try rfl
  · funext did
    exact insertAll_frame _ _ _ _ _ _ (Or.inl (append_same_suffix_ne _ hn2))
  · funext k
    exact insertAll_frame _ _ _ _ _ _ (Or.inl (append_same_suffix_ne _ hn2))

theorem read_wallet_after_persist_tx_graph {A M : Type} (impl : AnchorImpl A M)
    (s1 s2 : Store) (cs : TxGraphCS A) (db : DB M)
    (hne : s1.wallet_name ≠ s2.wallet_name) :
    read_wallet s2 (persist_tx_graph impl s1 cs db).db = read_wallet s2 db := by
  have hn2 : s2.wallet_name ≠ s1.wallet_name := fun hc => hne hc.symm
  cases ha : persist_anchors impl s1 db cs.anchors cs.txs
      (persist_txouts s1 cs.txouts (persist_txs s1 cs.txs db)) with
  | error msg => simp only [persist_tx_graph, ha]
  | ok db3 =>
    cases hl : persist_last_seen s1 db cs.last_seen cs.txs db3 with
    | error msg => simp only [persist_tx_graph, ha, hl]
    | ok db4 =>
      cases hle : persist_last_evicted s1 db cs.last_evicted cs.txs db4 with
      | error msg => simp only [persist_tx_graph, ha, hl, hle]
      | ok db5 =>
        cases hf : persist_first_seen s1 db cs.first_seen cs.txs db5 with
        | error msg => simp only [persist_tx_graph, ha, hl, hle, hf]
        | ok db6 =>
          simp only [persist_tx_graph, ha, hl, hle, hf]
          unfold persist_anchors at ha
          obtain ⟨m3, hm3, h3⟩ := except_map_ok ha
          subst h3
          unfold persist_last_seen at hl
          obtain ⟨m4, hm4, h4⟩ := except_map_ok hl
          subst h4
          unfold persist_last_evicted at hle
          obtain ⟨m5, hm5, h5⟩ := except_map_ok hle
          subst h5
          unfold persist_first_seen at hf
          obtain ⟨m6, hm6, h6⟩ := except_map_ok hf
          subst h6
          apply ReadWallet.ext <;> try rfl
          · funext txid
            exact insertAll_frame _ _ _ _ _ _ (Or.inl (append_same_suffix_ne _ hn2))
          · funext op
            exact insertAll_frame _ _ _ _ _ _ (Or.inl (append_same_suffix_ne _ hn2))
          · funext k
            exact guardedInsertAll_ok_frame _ _ _ _ _ _ _ _ hm3 _
              (Or.inl (append_same_suffix_ne _ hn2))
          · funext txid
            exact guardedInsertAll_ok_frame _ _ _ _ _ _ _ _ hm4 _
              (Or.inl (append_same_suffix_ne _ hn2))
          · funext txid
            exact guardedInsertAll_ok_frame _ _ _ _ _ _ _ _ hm5 _
              (Or.inl (append_same_suffix_ne _ hn2))
          · funext txid
            exact guardedInsertAll_ok_frame _ _ _ _ _ _ _ _ hm6 _
              (Or.inl (append_same_suffix_ne _ hn2))

/-- Claim C8: for two distinct wallet namespaces on the same physical
database, persisting any changeset under one namespace never changes what
a load under the other namespace returns (two-run non-interference across
namespaces): the table names derived from distinct namespaces are
distinct, and the shared NETWORK table is keyed by wallet name. -/
theorem wallet_namespace_isolation (s1 s2 : Store) (cs : WalletCS) (db : DB Nat)
    (hne : s1.wallet_name ≠ s2.wallet_name) :
    read_wallet s2 (persist_wallet s1 cs db).db = read_wallet s2 db := by
  show read_wallet s2 (persist_tx_graph cbtAnchor s1 cs.tx_graph
      (persist_indexer s1 cs.last_revealed cs.spk_cache
        (persist_local_chain s1 cs.blocks
          (persist_keychains s1 (descChangeset cs)
            (persist_network s1 cs.network db))))).db = read_wallet s2 db
  rw [read_wallet_after_persist_tx_graph cbtAnchor s1 s2 _ _ hne,
    read_wallet_after_persist_indexer s1 s2 _ _ _ hne,
    read_wallet_after_persist_local_chain s1 s2 _ _ hne,
    read_wallet_after_persist_keychains s1 s2 _ _ hne,
    read_wallet_after_persist_network s1 s2 _ _ hne]

/-- Witness for C8: persisting a full changeset under "wallet1" leaves
what "wallet2" loads unchanged. -/
theorem wallet_namespace_isolation_witness :
    read_wallet ⟨"wallet2".data⟩
      (persist_wallet ⟨"wallet1".data⟩
        ⟨some "desc0".data, some "desc1".data, some .bitcoin,
          [(0, some (List.replicate 32 2))],
          ⟨[⟨List.replicate 32 0, [9]⟩], [], [], [(List.replicate 32 0, 50)], [], []⟩,
          [(List.replicate 32 6, 4)], [(List.replicate 32 6, [(0, [1, 2])])]⟩
        (emptyDB : DB Nat)).db
      = read_wallet ⟨"wallet2".data⟩ (emptyDB : DB Nat) :=
  wallet_namespace_isolation ⟨"wallet1".data⟩ ⟨"wallet2".data⟩ _ _ (by decide)

end BdkRedb
